import Mathlib

/-!
Verification development for the scheduling-and-daemon-control subsystem of
`vs-server-manager` (Vintage Story Server Manager).

The definitions below are a shallow embedding of the Python sources:
* `vsm/scheduler.py` — `VSMScheduler` (hour-set computation, job table,
  announcement derivation, backup-cycle orchestration),
* `vsm/background.py` — daemon shutdown paths,
* `vsm/rpc.py` — `SchedulerRPCClient._send_request`.

Wall-clock instants are modelled as whole seconds: server-backup and
announcement instants in the code are always whole seconds (`second=0`,
`microsecond=0` on every constructed instant), so second granularity is exact
for every comparison the code performs.  Scheduled times that may be shifted
earlier by `advance_jobs` are integers (`ℤ`).
-/

namespace VSM

/-- `ANNOUNCEMENT_INTERVALS = [30, 15, 10, 5, 2, 1]` from `scheduler.py`:
minutes of lead time before a server backup at which announcements fire. -/
def ANNOUNCEMENT_INTERVALS : List ℕ := [30, 15, 10, 5, 2, 1]

/-- A job trigger: either a cron trigger (`CronTrigger(hour=..., minute=...)`,
with the hour field holding the parsed hour list in ascending order exactly as
produced by joining the sorted hour set) or a one-shot date trigger
(`"date"` with `run_date`, in seconds). -/
inductive Trigger where
  | cron (hours : List ℕ) (minute : ℕ)
  | date (run_date : ℤ)
deriving DecidableEq, Repr

/-- One scheduled job as held by the underlying `BackgroundScheduler`:
`id`, display `name`, `trigger`, and nullable `next_run_time` (seconds). -/
structure Job where
  id : String
  name : String
  trigger : Trigger
  next_run_time : Option ℤ
deriving DecidableEq, Repr

/-- The configuration keys the scheduler reads, already resolved with their
defaults (`config.get("world_backup_interval", 1)` etc.). -/
structure Config where
  world_backup_interval : ℕ
  server_backup_interval : ℕ
  backup_offset_hours : ℕ
deriving DecidableEq, Repr

/-- The underlying APScheduler `BackgroundScheduler`: its job table and
whether `.start()` has been called (the `.running` flag). -/
structure APSched where
  jobs : List Job
  running : Bool
deriving DecidableEq, Repr

/-- The `VSMScheduler` object: `_scheduler` (`None` until `start()`,
reset to `None` by `stop()`) and `_config`. -/
structure VSMScheduler where
  scheduler : Option APSched
  config : Option Config
deriving DecidableEq, Repr

/-- `SchedulerState` enum from `scheduler.py`. -/
inductive SchedulerState where
  | stopped
  | running
  | paused
deriving DecidableEq, Repr

/-- Fresh `VSMScheduler()`: `_scheduler = None`, `_config = None`. -/
def VSMScheduler.init : VSMScheduler := ⟨none, none⟩

/-- The backup hour set computed in `VSMScheduler.start`:
`{(offset_hours + i * interval) % 24 for i in range(24 // interval)}` when
`interval > 0`, else the empty set.  Used for both the server and the world
hour sets. -/
def backupHours (interval offset : ℕ) : Finset ℕ :=
  if 0 < interval then
    (Finset.range (24 / interval)).image (fun i => (offset + i * interval) % 24)
  else ∅

/-- Python's `sorted(hour_set)` for an hour set (all elements lie in
`[0, 24)`): the ascending enumeration of the set's elements. -/
def sortedSetList (s : Finset ℕ) : List ℕ :=
  (List.range 24).filter (fun h => decide (h ∈ s))

/-- `job.id.startswith("announce_")` from `_schedule_next_announcements`. -/
def isAnnounceId (s : String) : Bool :=
  s.data.take 9 == "announce_".data

/-- The one-shot announcement job added by `_schedule_next_announcements`:
`id = f"announce_{minutes}"`, `name = f"Announce {minutes}m"`, a `"date"`
trigger at `announce_time`, whose `next_run_time` is that same instant. -/
def announceJob (minutes : ℕ) (t : ℤ) : Job :=
  { id := "announce_" ++ toString minutes
    name := "Announce " ++ toString minutes ++ "m"
    trigger := Trigger.date t
    next_run_time := some t }

/-- `now.hour` for a wall-clock instant given in seconds. -/
def hourOf (now : ℕ) : ℕ := now % 86400 / 3600

/-- `now.replace(hour=0, minute=0, second=0, microsecond=0)`: midnight of
`now`'s day, in seconds. -/
def dayStart (now : ℕ) : ℕ := now / 86400 * 86400

/-- The list comprehension in `_schedule_next_announcements`, before
sorting: `[(offset_hours + i * server_interval) % 24 for i in
range(24 // server_interval)]`. -/
def rawBackupHoursList (interval offset : ℕ) : List ℕ :=
  (List.range (24 / interval)).map (fun i => (offset + i * interval) % 24)

/-- The next-backup-instant computation of `_schedule_next_announcements`:
sort the backup hours, look for the first hour strictly after the current
hour (today), else fall back to the first backup hour of tomorrow.  `none`
models the `IndexError` the Python code raises on `backup_hours[0]` when the
hour list is empty. -/
def nextBackupTime (si off now : ℕ) : Option ℕ :=
  match ((rawBackupHoursList si off).insertionSort (· ≤ ·)).find?
      (fun h => decide (hourOf now < h)) with
  | some h => some (dayStart now + h * 3600)
  | none =>
    match ((rawBackupHoursList si off).insertionSort (· ≤ ·)).head? with
    | some h0 => some (dayStart now + h0 * 3600 + 86400)
    | none => none

/-- The announcement jobs `_schedule_next_announcements` adds for a next
backup at instant `nb`: one `"date"` job per lead time whose
`announce_time = nb - lead` still lies strictly in the future. -/
def newAnnouncements (nb now : ℕ) : List Job :=
  ANNOUNCEMENT_INTERVALS.filterMap (fun (minutes : ℕ) =>
    if (nb : ℤ) - (minutes : ℤ) * 60 > (now : ℤ) then
      some (announceJob minutes ((nb : ℤ) - (minutes : ℤ) * 60))
    else none)

/-- `VSMScheduler._schedule_next_announcements`, as a transformation of the
job table.  `si`/`off` are the configured server interval and offset, `now`
is `datetime.now()` in seconds.  Existing jobs whose id starts with
`announce_` are removed, then the fresh announcements are added.  Returns
`none` when the Python code would raise. -/
def schedule_next_announcements (jobs : List Job) (si off now : ℕ) :
    Option (List Job) :=
  if si = 0 then some jobs
  else
    match nextBackupTime si off now with
    | none => none
    | some nb =>
      some ((jobs.filter (fun j => !(isAnnounceId j.id))) ++ newAnnouncements nb now)

/-- The next fire time APScheduler derives for a cron trigger with the given
hour list and minute: the earliest instant `≥ now` on today's or tomorrow's
clock whose hour is in the list, at the given minute. -/
def cronNext (hours : List ℕ) (minute now : ℕ) : Option ℕ :=
  ((hours.map (fun h => dayStart now + h * 3600 + minute * 60) ++
    hours.map (fun h => dayStart now + 86400 + h * 3600 + minute * 60)).filter
      (fun t => decide (now ≤ t))).min?

/-- The `world_backup` job registered by `start`:
`CronTrigger(hour=world_hours_str, minute=0)`. -/
def worldJob (hours : List ℕ) (now : ℕ) : Job :=
  { id := "world_backup"
    name := "World Backup"
    trigger := Trigger.cron hours 0
    next_run_time := (cronNext hours 0 now).map (fun t => (t : ℤ)) }

/-- The `server_backup` job registered by `start`:
`CronTrigger(hour=server_hours_str, minute=0)`. -/
def serverJob (hours : List ℕ) (now : ℕ) : Job :=
  { id := "server_backup"
    name := "Server Backup"
    trigger := Trigger.cron hours 0
    next_run_time := (cronNext hours 0 now).map (fun t => (t : ℤ)) }

/-- The `reschedule_announcements` job registered by `start`:
`CronTrigger(hour=server_hours_str, minute=1)`. -/
def rescheduleJob (hours : List ℕ) (now : ℕ) : Job :=
  { id := "reschedule_announcements"
    name := "Reschedule Announcements"
    trigger := Trigger.cron hours 1
    next_run_time := (cronNext hours 1 now).map (fun t => (t : ℤ)) }

/-- The two persistent backup jobs `VSMScheduler.start` registers before the
announcement sub-schedule: the world-backup job (when `world_interval > 0`
and `world_only_hours = world_backup_hours - server_backup_hours` is
nonempty) followed by the server-backup job (when `server_interval > 0`).
No-op cases, the announcement derivation and the reschedule trigger are in
`VSMScheduler.start` below. -/
def startJobs1 (cfg : Config) (now : ℕ) : List Job :=
  (if 0 < cfg.world_backup_interval ∧
      (backupHours cfg.world_backup_interval cfg.backup_offset_hours \
        backupHours cfg.server_backup_interval cfg.backup_offset_hours).Nonempty then
    [worldJob (sortedSetList
      (backupHours cfg.world_backup_interval cfg.backup_offset_hours \
        backupHours cfg.server_backup_interval cfg.backup_offset_hours)) now]
  else []) ++
  (if 0 < cfg.server_backup_interval then
    [serverJob (sortedSetList
      (backupHours cfg.server_backup_interval cfg.backup_offset_hours)) now]
  else [])

/-- The non-no-op branch of `VSMScheduler.start`: build a fresh
`BackgroundScheduler`, register the persistent jobs of `startJobs1`, and —
when `server_interval > 0` — derive the announcement sub-schedule and add
the reschedule trigger, then start the scheduler.  `none` models an
exception escaping `start` (only possible from
`_schedule_next_announcements`). -/
def startFresh (cfg : Config) (now : ℕ) : Option VSMScheduler :=
  if 0 < cfg.server_backup_interval then
    match schedule_next_announcements (startJobs1 cfg now)
        cfg.server_backup_interval cfg.backup_offset_hours now with
    | none => none
    | some jobs2 =>
      some ⟨some ⟨jobs2 ++ [rescheduleJob (sortedSetList
          (backupHours cfg.server_backup_interval cfg.backup_offset_hours)) now], true⟩,
        some cfg⟩
  else
    some ⟨some ⟨startJobs1 cfg now, true⟩, some cfg⟩

/-- `VSMScheduler.start(config)` at wall-clock instant `now` (seconds):
no-op if a scheduler exists and is running, otherwise `startFresh`. -/
def VSMScheduler.start (s : VSMScheduler) (cfg : Config) (now : ℕ) :
    Option VSMScheduler :=
  if (s.scheduler.map APSched.running).getD false then some s
  else startFresh cfg now

/-- `VSMScheduler.get_state`. -/
def VSMScheduler.get_state (s : VSMScheduler) : SchedulerState :=
  match s.scheduler with
  | none => SchedulerState.stopped
  | some sch => if sch.running then SchedulerState.running else SchedulerState.stopped

/-- `VSMScheduler.get_jobs`: snapshot of the job table (`[]` when no
scheduler exists). -/
def VSMScheduler.get_jobs (s : VSMScheduler) : List Job :=
  match s.scheduler with
  | none => []
  | some sch => sch.jobs

/-- `VSMScheduler.advance_jobs(minutes)`: shift every job that has a
`next_run_time` earlier by `minutes` minutes and count them; `0` and no
change when no scheduler exists. -/
def VSMScheduler.advance_jobs (s : VSMScheduler) (minutes : ℤ) :
    VSMScheduler × ℕ :=
  match s.scheduler with
  | none => (s, 0)
  | some sch =>
    (⟨some ⟨sch.jobs.map (fun j =>
        match j.next_run_time with
        | some t => { j with next_run_time := some (t - minutes * 60) }
        | none => j), sch.running⟩, s.config⟩,
     (sch.jobs.filter (fun j => j.next_run_time.isSome)).length)

/-- `VSMScheduler.stop`: shuts the scheduler down and clears `_scheduler`. -/
def VSMScheduler.stop (s : VSMScheduler) : VSMScheduler :=
  match s.scheduler with
  | none => s
  | some _ => ⟨none, s.config⟩

end VSM

namespace VSM

/-! ### Backup-cycle orchestration (`VSMScheduler._run_server_backup`) -/

/-- The seven externally visible steps of the server-backup cycle, in the
order `_run_server_backup` performs them. -/
inductive Step where
  | recordStop
  | serverStop
  | serverBackup
  | cleanup
  | prune
  | serverStart
  | recordStart
deriving DecidableEq, Repr, Fintype

/-- The main step sequence of `_run_server_backup`'s `try` block. -/
def mainSteps : List Step :=
  [Step.recordStop, Step.serverStop, Step.serverBackup, Step.cleanup,
   Step.prune, Step.serverStart, Step.recordStart]

/-- Run steps in order until the first failure; `ok` tells which steps
succeed.  Produces the trace of attempted steps with their outcomes. -/
def runSteps (steps : List Step) (ok : Step → Bool) : List (Step × Bool) :=
  match steps with
  | [] => []
  | s :: rest => if ok s then (s, true) :: runSteps rest ok else [(s, false)]

/-- `_run_server_backup`: run the main steps; on any failure the `except`
block attempts `start(self._config)` once more, swallowing that attempt's
own failure (`recoveryOk` is that attempt's outcome).  The result is the
trace of attempted steps; the function always returns (no exception
escapes). -/
def run_server_backup (ok : Step → Bool) (recoveryOk : Bool) :
    List (Step × Bool) :=
  let t := runSteps mainSteps ok
  if t.all (fun p => p.2) then t else t ++ [(Step.serverStart, recoveryOk)]

/-! ### Daemon shutdown paths (`vsm/background.py`) -/

/-- The daemon-process state that the shutdown paths touch: whether the RPC
listener and the scheduler engine are running, whether the PID file and the
ready marker exist, and whether `sys.exit` has been called. -/
structure Daemon where
  rpc_running : Bool
  scheduler_running : Bool
  pid_file : Bool
  ready_file : Bool
  exited : Bool
deriving DecidableEq, Repr

/-- `handle_shutdown_signal` (SIGTERM/SIGINT handler in `background.py`):
stops the RPC server and the scheduler, unlinks the PID file only, exits. -/
def handle_shutdown_signal (d : Daemon) : Daemon :=
  { d with rpc_running := false, scheduler_running := false,
           pid_file := false, exited := true }

/-- `graceful_shutdown` in `background.py` (poll-loop shutdown): stops the
RPC server and the scheduler, unlinks both the PID file and the ready
marker, exits. -/
def graceful_shutdown (d : Daemon) : Daemon :=
  { d with rpc_running := false, scheduler_running := false,
           pid_file := false, ready_file := false, exited := true }

/-- The three graceful-shutdown triggers named by the spec. -/
inductive ShutdownTrigger where
  | termSignal
  | pidFileRemoved
  | sourceFilesMissing
deriving DecidableEq, Repr, Fintype

/-- Which shutdown routine each trigger invokes in `background.py`'s `main`:
signals are wired to `handle_shutdown_signal`; the two poll-loop checks call
`graceful_shutdown`. -/
def shutdownFor : ShutdownTrigger → Daemon → Daemon
  | ShutdownTrigger.termSignal => handle_shutdown_signal
  | ShutdownTrigger.pidFileRemoved => graceful_shutdown
  | ShutdownTrigger.sourceFilesMissing => graceful_shutdown

/-! ### RPC client (`SchedulerRPCClient._send_request`, `vsm/rpc.py`) -/

/-- The connect/read timeout (seconds) passed to
`socket.create_connection(..., timeout=2)` in `_send_request`. -/
def connectTimeout : ℕ := 2

/-- Outcome of one transport attempt: connection refused, timeout expired,
empty response, some other exception, or a reply body. -/
inductive ConnectOutcome where
  | refused
  | timedOut
  | emptyResponse
  | otherError (msg : String)
  | reply (body : String)
deriving DecidableEq, Repr

/-- What `_send_request` hands back to its caller: the error dictionary
`{"error": {"message": ...}}` it builds itself, or the deserialized reply. -/
inductive RpcResponse where
  | errorResp (message : String)
  | parsed (body : String)
deriving DecidableEq, Repr

/-- `SchedulerRPCClient._send_request(method, params)`: a total function of
the transport outcome — every branch returns a dictionary, no exception
propagates to the caller. -/
def send_request (method : String) (params : String)
    (outcome : ConnectOutcome) : RpcResponse :=
  match method, params, outcome with
  | _, _, ConnectOutcome.refused =>
    RpcResponse.errorResp "Connection to scheduler daemon failed."
  | _, _, ConnectOutcome.timedOut =>
    RpcResponse.errorResp "Connection to scheduler daemon failed."
  | _, _, ConnectOutcome.emptyResponse =>
    RpcResponse.errorResp "Empty response from server"
  | _, _, ConnectOutcome.otherError m =>
    RpcResponse.errorResp ("An unexpected error occurred: " ++ m)
  | _, _, ConnectOutcome.reply b => RpcResponse.parsed b

end VSM

namespace VSM

/-! ### Helper lemmas -/

/-- Elements of `sortedSetList s` are exactly the elements of `s` below 24. -/
theorem mem_sortedSetList (s : Finset ℕ) (h : ℕ) :
    h ∈ sortedSetList s ↔ h < 24 ∧ h ∈ s := by
  simp [sortedSetList, List.mem_filter, List.mem_range]

/-- The hour set depends on the offset only through `offset % 24`. -/
theorem backupHours_mod24 (interval offset : ℕ) :
    backupHours interval offset = backupHours interval (offset % 24) := by
  unfold backupHours
  split
  · apply Finset.image_congr
    intro i _
    have key : ∀ a k : ℕ, (a + k) % 24 = (a % 24 + k) % 24 := by intro a k; omega
    exact key offset (i * interval)
  · rfl

/-- For the divisors of 24 and a bounded offset, the hour set only depends on
the offset modulo the interval. -/
theorem backupHours_divisor_mod :
    ∀ interval ∈ ({1, 2, 3, 4, 6, 8, 12, 24} : Finset ℕ), ∀ offset < 24,
      backupHours interval offset = backupHours interval (offset % interval) := by
  decide

end VSM

namespace VSM

/-! ### Claim theorems (first batch) -/

/-- C1: for every `server_interval ∈ {1,2,3,4,6,8,12,24}` and every
`offset ∈ [0, server_interval)`, the server-backup hour set computed by
`start()` equals `{(offset + i·server_interval) mod 24 : i ∈ [0, 24/server_interval)}`,
has exactly `24/server_interval` (pairwise distinct) elements, all in
`[0, 24)`; and when `server_interval = 0` the set is empty. -/
theorem backup_hour_set_of_start_spec (interval offset : ℕ)
    (hi : interval ∈ ({1, 2, 3, 4, 6, 8, 12, 24} : Finset ℕ))
    (ho : offset < interval) :
    backupHours interval offset =
      (Finset.range (24 / interval)).image (fun i => (offset + i * interval) % 24) ∧
    (backupHours interval offset).card = 24 / interval ∧
    (∀ h ∈ backupHours interval offset, h < 24) ∧
    (∀ o : ℕ, backupHours 0 o = ∅) := by
  have main : backupHours interval offset =
      (Finset.range (24 / interval)).image (fun i => (offset + i * interval) % 24) ∧
      (backupHours interval offset).card = 24 / interval ∧
      (∀ h ∈ backupHours interval offset, h < 24) := by
    fin_cases hi <;> interval_cases offset <;> decide
  exact ⟨main.1, main.2.1, main.2.2, fun o => by simp [backupHours]⟩

/-- C1 witness: instantiation at `interval = 6`, `offset = 3`. -/
theorem backup_hour_set_of_start_spec_witness :
    (6 : ℕ) ∈ ({1, 2, 3, 4, 6, 8, 12, 24} : Finset ℕ) ∧ (3 : ℕ) < 6 ∧
    (backupHours 6 3).card = 24 / 6 :=
  ⟨by decide, by decide,
   (backup_hour_set_of_start_spec 6 3 (by decide) (by decide)).2.1⟩

/-- C7: for every interval dividing 24 and every offset (also offsets `≥`
the interval), the computed hour set equals the one computed with
`offset % interval`: the schedule behaves as if offsets were reduced modulo
the interval. -/
theorem backupHours_offset_mod_interval (interval offset : ℕ)
    (hd : interval ∣ 24) :
    backupHours interval offset = backupHours interval (offset % interval) := by
  have hpos : 0 < interval := Nat.pos_of_dvd_of_pos hd (by norm_num)
  have hmem : interval ∈ ({1, 2, 3, 4, 6, 8, 12, 24} : Finset ℕ) := by
    have h1 : interval ∈ Nat.divisors 24 := Nat.mem_divisors.mpr ⟨hd, by norm_num⟩
    have h2 : Nat.divisors 24 = ({1, 2, 3, 4, 6, 8, 12, 24} : Finset ℕ) := by decide
    rwa [h2] at h1
  have step1 : backupHours interval offset = backupHours interval (offset % 24) :=
    backupHours_mod24 interval offset
  have step2 : backupHours interval (offset % 24) =
      backupHours interval (offset % 24 % interval) :=
    backupHours_divisor_mod interval hmem (offset % 24) (Nat.mod_lt _ (by norm_num))
  have step3 : offset % 24 % interval = offset % interval :=
    Nat.mod_mod_of_dvd offset hd
  rw [step1, step2, step3]

/-- C7 witness: instantiation at `interval = 6`, `offset = 14`. -/
theorem backupHours_offset_mod_interval_witness :
    (6 : ℕ) ∣ 24 ∧ backupHours 6 14 = backupHours 6 (14 % 6) :=
  ⟨by decide, backupHours_offset_mod_interval 6 14 (by decide)⟩

/-- C9: calling `start()` on an engine whose state is already Running is a
no-op — the state (hence the job table and its count) is unchanged. -/
theorem start_noop_when_running (s : VSMScheduler) (cfg : Config) (now : ℕ)
    (h : s.get_state = SchedulerState.running) :
    s.start cfg now = some s ∧
    (∀ s', s.start cfg now = some s' → s'.get_jobs.length = s.get_jobs.length) := by
  have hrun : (s.scheduler.map APSched.running).getD false = true := by
    unfold VSMScheduler.get_state at h
    match hsch : s.scheduler with
    | none => rw [hsch] at h; simp at h
    | some sch =>
      rw [hsch] at h
      by_cases hr : sch.running
      · simp [hr]
      · simp [hr] at h
  have hstart : s.start cfg now = some s := by
    unfold VSMScheduler.start
    rw [hrun]
    rfl
  refine ⟨hstart, fun s' hs' => ?_⟩
  rw [hstart] at hs'
  injection hs' with hs'
  rw [hs']

/-- C9 witness: a running engine with one job. -/
theorem start_noop_when_running_witness :
    (VSMScheduler.get_state ⟨some ⟨[], true⟩, none⟩ = SchedulerState.running) ∧
    VSMScheduler.start ⟨some ⟨[], true⟩, none⟩ ⟨1, 6, 0⟩ 0 =
      some ⟨some ⟨[], true⟩, none⟩ :=
  ⟨by decide,
   (start_noop_when_running ⟨some ⟨[], true⟩, none⟩ ⟨1, 6, 0⟩ 0 (by decide)).1⟩

/-- C10: on an engine with no internal scheduler (never started, or after
`stop()`), `get_jobs` returns `[]`, `advance_jobs(m)` returns `0` and leaves
the state unchanged; a fresh engine and any stopped engine are in that
situation. -/
theorem ops_total_without_scheduler (s : VSMScheduler)
    (h : s.scheduler = none) :
    s.get_jobs = [] ∧
    (∀ m : ℤ, s.advance_jobs m = (s, 0)) ∧
    VSMScheduler.init.scheduler = none ∧
    (∀ s' : VSMScheduler, s'.stop.scheduler = none) := by
  refine ⟨?_, fun m => ?_, rfl, fun s' => ?_⟩
  · unfold VSMScheduler.get_jobs; rw [h]
  · unfold VSMScheduler.advance_jobs; rw [h]
  · unfold VSMScheduler.stop
    match hs : s'.scheduler with
    | none => exact hs
    | some sch => rfl

/-- C10 witness: the fresh engine. -/
theorem ops_total_without_scheduler_witness :
    VSMScheduler.init.scheduler = none ∧
    VSMScheduler.init.get_jobs = [] ∧
    VSMScheduler.init.advance_jobs 5 = (VSMScheduler.init, 0) :=
  ⟨rfl, (ops_total_without_scheduler VSMScheduler.init rfl).1,
   (ops_total_without_scheduler VSMScheduler.init rfl).2.1 5⟩

/-- C2: `advance_jobs(m)` on a live scheduler shifts every job that has a
`next_run_time = T` to `T - m` minutes, leaves jobs without one unmodified,
and returns the number of jobs that had a `next_run_time`. -/
theorem advance_jobs_shifts_and_counts (s : VSMScheduler) (sch : APSched)
    (hs : s.scheduler = some sch) (m : ℤ) :
    ∃ sch' : APSched,
      s.advance_jobs m =
        (⟨some sch', s.config⟩, sch.jobs.countP (fun j => j.next_run_time.isSome)) ∧
      sch'.running = sch.running ∧
      sch'.jobs.length = sch.jobs.length ∧
      ∀ i (hi : i < sch.jobs.length) (hi' : i < sch'.jobs.length),
        ((sch.jobs.get ⟨i, hi⟩).next_run_time = none →
          sch'.jobs.get ⟨i, hi'⟩ = sch.jobs.get ⟨i, hi⟩) ∧
        (∀ T : ℤ, (sch.jobs.get ⟨i, hi⟩).next_run_time = some T →
          (sch'.jobs.get ⟨i, hi'⟩).next_run_time = some (T - m * 60) ∧
          (sch'.jobs.get ⟨i, hi'⟩).id = (sch.jobs.get ⟨i, hi⟩).id ∧
          (sch'.jobs.get ⟨i, hi'⟩).name = (sch.jobs.get ⟨i, hi⟩).name ∧
          (sch'.jobs.get ⟨i, hi'⟩).trigger = (sch.jobs.get ⟨i, hi⟩).trigger) := by
  refine ⟨⟨sch.jobs.map (fun j =>
      match j.next_run_time with
      | some t => { j with next_run_time := some (t - m * 60) }
      | none => j), sch.running⟩, ?_, rfl, by simp, ?_⟩
  · unfold VSMScheduler.advance_jobs
    rw [hs, List.countP_eq_length_filter]
  · intro i hi hi'
    have hget : ∀ (hj : i < (sch.jobs.map (fun j =>
        match j.next_run_time with
        | some t => { j with next_run_time := some (t - m * 60) }
        | none => j)).length),
        (sch.jobs.map (fun j =>
          match j.next_run_time with
          | some t => { j with next_run_time := some (t - m * 60) }
          | none => j)).get ⟨i, hj⟩ =
          (match (sch.jobs.get ⟨i, hi⟩).next_run_time with
          | some t => { sch.jobs.get ⟨i, hi⟩ with next_run_time := some (t - m * 60) }
          | none => sch.jobs.get ⟨i, hi⟩) := by
      intro hj
      simp [List.get_eq_getElem, List.getElem_map]
    constructor
    · intro hnone
      rw [hget hi', hnone]
    · intro T hT
      rw [hget hi', hT]
      exact ⟨rfl, rfl, rfl, rfl⟩

/-- C2 witness: two jobs, one with and one without a next run time,
advanced by 5 minutes. -/
theorem advance_jobs_shifts_and_counts_witness :
    ∃ sch' : APSched,
      VSMScheduler.advance_jobs
          ⟨some ⟨[⟨"a", "A", Trigger.date 600, some 600⟩,
                  ⟨"b", "B", Trigger.cron [0] 0, none⟩], true⟩, none⟩ 5 =
        (⟨some sch', none⟩,
         ([⟨"a", "A", Trigger.date 600, some 600⟩,
           ⟨"b", "B", Trigger.cron [0] 0, none⟩] : List Job).countP
            (fun j => j.next_run_time.isSome)) ∧
      sch'.running = true ∧
      sch'.jobs.length =
        ([⟨"a", "A", Trigger.date 600, some 600⟩,
          ⟨"b", "B", Trigger.cron [0] 0, none⟩] : List Job).length ∧
      ∀ i (hi : i < ([⟨"a", "A", Trigger.date 600, some 600⟩,
          ⟨"b", "B", Trigger.cron [0] 0, none⟩] : List Job).length)
          (hi' : i < sch'.jobs.length),
        ((([⟨"a", "A", Trigger.date 600, some 600⟩,
            ⟨"b", "B", Trigger.cron [0] 0, none⟩] : List Job).get ⟨i, hi⟩).next_run_time = none →
          sch'.jobs.get ⟨i, hi'⟩ =
            ([⟨"a", "A", Trigger.date 600, some 600⟩,
              ⟨"b", "B", Trigger.cron [0] 0, none⟩] : List Job).get ⟨i, hi⟩) ∧
        (∀ T : ℤ, ((([⟨"a", "A", Trigger.date 600, some 600⟩,
            ⟨"b", "B", Trigger.cron [0] 0, none⟩] : List Job).get ⟨i, hi⟩).next_run_time = some T →
          (sch'.jobs.get ⟨i, hi'⟩).next_run_time = some (T - 5 * 60) ∧
          (sch'.jobs.get ⟨i, hi'⟩).id =
            (([⟨"a", "A", Trigger.date 600, some 600⟩,
               ⟨"b", "B", Trigger.cron [0] 0, none⟩] : List Job).get ⟨i, hi⟩).id ∧
          (sch'.jobs.get ⟨i, hi'⟩).name =
            (([⟨"a", "A", Trigger.date 600, some 600⟩,
               ⟨"b", "B", Trigger.cron [0] 0, none⟩] : List Job).get ⟨i, hi⟩).name ∧
          (sch'.jobs.get ⟨i, hi'⟩).trigger =
            (([⟨"a", "A", Trigger.date 600, some 600⟩,
               ⟨"b", "B", Trigger.cron [0] 0, none⟩] : List Job).get ⟨i, hi⟩).trigger)) :=
  advance_jobs_shifts_and_counts
    ⟨some ⟨[⟨"a", "A", Trigger.date 600, some 600⟩,
            ⟨"b", "B", Trigger.cron [0] 0, none⟩], true⟩, none⟩
    ⟨[⟨"a", "A", Trigger.date 600, some 600⟩,
      ⟨"b", "B", Trigger.cron [0] 0, none⟩], true⟩ rfl 5

/-- C5 counterexample: the termination-signal shutdown path
(`handle_shutdown_signal`) does not delete the ready marker — starting from
a daemon with both liveness files present, the ready marker survives. -/
theorem signal_shutdown_keeps_ready_marker :
    ¬ ((shutdownFor ShutdownTrigger.termSignal ⟨true, true, true, true, false⟩).ready_file
        = false) := by
  decide

/-- C5 (amended): every trigger's shutdown path stops the RPC listener,
stops the scheduler engine and deletes the PID file before exiting; the two
poll-loop triggers (PID file removed, source files missing) also delete the
ready marker, while the termination-signal path leaves the ready marker
untouched. -/
theorem shutdown_paths_spec (d : Daemon) (t : ShutdownTrigger) :
    (shutdownFor t d).rpc_running = false ∧
    (shutdownFor t d).scheduler_running = false ∧
    (shutdownFor t d).pid_file = false ∧
    (shutdownFor t d).exited = true ∧
    (t ≠ ShutdownTrigger.termSignal → (shutdownFor t d).ready_file = false) ∧
    (t = ShutdownTrigger.termSignal → (shutdownFor t d).ready_file = d.ready_file) := by
  cases t <;>
    simp [shutdownFor, handle_shutdown_signal, graceful_shutdown]

/-- C5 witness: the PID-file-removal trigger deletes the ready marker. -/
theorem shutdown_paths_spec_witness :
    (shutdownFor ShutdownTrigger.pidFileRemoved ⟨true, true, true, true, false⟩).ready_file
      = false :=
  (shutdown_paths_spec ⟨true, true, true, true, false⟩
    ShutdownTrigger.pidFileRemoved).2.2.2.2.1 (by decide)

/-- C6: for every method and parameters, a call whose transport attempt is
refused or times out returns the structured dictionary
`{"error": {"message": "Connection to scheduler daemon failed."}}` (the
function is total, so no exception reaches the caller), and the connect/read
timeout it uses is the finite constant 2 seconds. -/
theorem send_request_connection_failure_is_error_dict
    (method params : String) (outcome : ConnectOutcome)
    (h : outcome = ConnectOutcome.refused ∨ outcome = ConnectOutcome.timedOut) :
    send_request method params outcome =
      RpcResponse.errorResp "Connection to scheduler daemon failed." ∧
    connectTimeout = 2 := by
  rcases h with rfl | rfl <;> exact ⟨rfl, rfl⟩

/-- C6 witness: `get_status` against a refused connection. -/
theorem send_request_connection_failure_is_error_dict_witness :
    send_request "get_status" "[]" ConnectOutcome.refused =
      RpcResponse.errorResp "Connection to scheduler daemon failed." :=
  (send_request_connection_failure_is_error_dict "get_status" "[]"
    ConnectOutcome.refused (Or.inl rfl)).1

end VSM

namespace VSM

set_option maxRecDepth 8000
set_option synthInstance.maxSize 512

/-- C4: the server-backup cycle performs the seven steps in order; on the
first failure all remaining steps are skipped and exactly one best-effort
server-start is attempted (its own failure swallowed — the function still
returns a trace); no step is ever attempted more than once, except
server-start which is attempted at most twice. -/
theorem run_server_backup_order_and_recovery :
    ∀ (ok : Step → Bool) (recoveryOk : Bool),
    ((∀ st ∈ mainSteps, ok st = true) →
      run_server_backup ok recoveryOk = mainSteps.map (fun st => (st, true))) ∧
    ((¬ ∀ st ∈ mainSteps, ok st = true) →
      ∃ k : Fin 7, ∃ s : Step,
        (mainSteps.drop k.val).head? = some s ∧
        (∀ st ∈ mainSteps.take k.val, ok st = true) ∧
        ok s = false ∧
        run_server_backup ok recoveryOk =
          (mainSteps.take k.val).map (fun st => (st, true)) ++
            [(s, false), (Step.serverStart, recoveryOk)]) ∧
    (∀ st : Step,
      ((run_server_backup ok recoveryOk).map Prod.fst).count st ≤
        (if st = Step.serverStart then 2 else 1)) := by
  decide

/-- C4 witness: the all-steps-succeed cycle runs the full sequence in
order with no recovery attempt. -/
theorem run_server_backup_order_and_recovery_witness :
    (∀ st ∈ mainSteps, (fun _ => true) st = true) ∧
    run_server_backup (fun _ => true) true =
      mainSteps.map (fun st => (st, true)) :=
  ⟨by decide,
   (run_server_backup_order_and_recovery (fun _ => true) true).1 (by decide)⟩

/-! ### Sorted-list lemmas for the announcement derivation -/

/-- `find?` with an upward-closed strictness test on an ascending list
returns the least element strictly above the threshold. -/
theorem find?_lt_sorted (c x : ℕ) :
    ∀ (l : List ℕ), l.Sorted (· ≤ ·) →
      l.find? (fun h => decide (c < h)) = some x →
      x ∈ l ∧ c < x ∧ ∀ y ∈ l, c < y → x ≤ y := by
  intro l
  induction l with
  | nil => intro _ hfind; simp at hfind
  | cons a l ih =>
    intro hl hfind
    rw [List.sorted_cons] at hl
    by_cases hca : c < a
    · rw [List.find?_cons_of_pos _ (by simpa using hca)] at hfind
      injection hfind with hx
      subst hx
      refine ⟨List.mem_cons_self _ _, hca, ?_⟩
      intro y hy _
      rcases List.mem_cons.mp hy with rfl | hy'
      · exact le_refl _
      · exact hl.1 y hy'
    · rw [List.find?_cons_of_neg _ (by simpa using hca)] at hfind
      obtain ⟨hx1, hx2, hx3⟩ := ih hl.2 hfind
      refine ⟨List.mem_cons_of_mem _ hx1, hx2, ?_⟩
      intro y hy hcy
      rcases List.mem_cons.mp hy with rfl | hy'
      · exact absurd hcy hca
      · exact hx3 y hy' hcy

/-- The head of an ascending list is its least element. -/
theorem head?_sorted (l : List ℕ) (hl : l.Sorted (· ≤ ·)) (x : ℕ)
    (hx : l.head? = some x) : x ∈ l ∧ ∀ y ∈ l, x ≤ y := by
  cases l with
  | nil => simp at hx
  | cons a l =>
    rw [List.head?_cons] at hx
    injection hx with hx
    subst hx
    rw [List.sorted_cons] at hl
    refine ⟨List.mem_cons_self _ _, ?_⟩
    intro y hy
    rcases List.mem_cons.mp hy with rfl | hy'
    · exact le_refl _
    · exact hl.1 y hy'

/-- For a positive interval, membership in the hour set and in the raw hour
list coincide. -/
theorem mem_backupHours_iff (si off h : ℕ) (hsi : 0 < si) :
    h ∈ backupHours si off ↔ h ∈ rawBackupHoursList si off := by
  simp [backupHours, rawBackupHoursList, hsi]

/-- Characterization of the next-backup instant: either the least backup
hour strictly after the current hour exists and the instant is today at that
hour, or every backup hour is at most the current hour and the instant is
tomorrow at the least backup hour. -/
theorem nextBackupTime_spec (si off now : ℕ) (hsi : 0 < si)
    (hne : (backupHours si off).Nonempty) :
    ∃ T, nextBackupTime si off now = some T ∧
      ((∃ h ∈ backupHours si off, hourOf now < h ∧
          (∀ h' ∈ backupHours si off, hourOf now < h' → h ≤ h') ∧
          T = dayStart now + h * 3600) ∨
       ((∀ h ∈ backupHours si off, h ≤ hourOf now) ∧
        ∃ h0 ∈ backupHours si off, (∀ h' ∈ backupHours si off, h0 ≤ h') ∧
          T = dayStart now + h0 * 3600 + 86400)) := by
  have hmemIff : ∀ x : ℕ,
      x ∈ (rawBackupHoursList si off).insertionSort (· ≤ ·) ↔
        x ∈ backupHours si off := by
    intro x
    rw [List.mem_insertionSort]
    exact (mem_backupHours_iff si off x hsi).symm
  have hsorted : ((rawBackupHoursList si off).insertionSort (· ≤ ·)).Sorted (· ≤ ·) :=
    List.sorted_insertionSort _ _
  unfold nextBackupTime
  cases hfind : ((rawBackupHoursList si off).insertionSort (· ≤ ·)).find?
      (fun h => decide (hourOf now < h)) with
  | some h =>
    obtain ⟨hmem, hlt, hmin⟩ := find?_lt_sorted (hourOf now) h _ hsorted hfind
    refine ⟨dayStart now + h * 3600, rfl,
      Or.inl ⟨h, (hmemIff h).mp hmem, hlt, ?_, rfl⟩⟩
    intro h' hh' hlt'
    exact hmin h' ((hmemIff h').mpr hh') hlt'
  | none =>
    have hall : ∀ y ∈ (rawBackupHoursList si off).insertionSort (· ≤ ·),
        ¬ (hourOf now < y) := by
      intro y hy
      have := List.find?_eq_none.mp hfind y hy
      simpa using this
    cases hhead : ((rawBackupHoursList si off).insertionSort (· ≤ ·)).head? with
    | none =>
      exfalso
      obtain ⟨x, hx⟩ := hne
      have hx' := (hmemIff x).mpr hx
      rw [List.head?_eq_none_iff] at hhead
      rw [hhead] at hx'
      simp at hx'
    | some h0 =>
      obtain ⟨hmem0, hmin0⟩ := head?_sorted _ hsorted h0 hhead
      refine ⟨dayStart now + h0 * 3600 + 86400, rfl,
        Or.inr ⟨?_, h0, (hmemIff h0).mp hmem0, ?_, rfl⟩⟩
      · intro h hh
        exact Nat.le_of_not_lt (hall h ((hmemIff h).mpr hh))
      · intro h' hh'
        exact hmin0 h' ((hmemIff h').mpr hh')

end VSM

namespace VSM

/-- Announcement ids compare equal exactly when the lead times do, for the
fixed lead times. -/
theorem announce_beq :
    ∀ a ∈ ANNOUNCEMENT_INTERVALS, ∀ b ∈ ANNOUNCEMENT_INTERVALS,
      (("announce_" ++ toString a : String) == "announce_" ++ toString b) =
        decide (a = b) := by
  decide

/-- Membership in the freshly scheduled announcement jobs. -/
theorem announce_mem (nb now : ℕ) (j : Job) :
    j ∈ newAnnouncements nb now ↔
      ∃ m ∈ ANNOUNCEMENT_INTERVALS, (nb : ℤ) - (m : ℤ) * 60 > (now : ℤ) ∧
        j = announceJob m ((nb : ℤ) - (m : ℤ) * 60) := by
  unfold newAnnouncements
  rw [List.mem_filterMap]
  constructor
  · rintro ⟨k, hk, hj⟩
    by_cases hc : (nb : ℤ) - (k : ℤ) * 60 > (now : ℤ)
    · rw [if_pos hc] at hj
      injection hj with hj
      exact ⟨k, hk, hc, hj.symm⟩
    · rw [if_neg hc] at hj
      exact absurd hj (by simp)
  · rintro ⟨m, hm, hc, rfl⟩
    exact ⟨m, hm, by rw [if_pos hc]⟩

/-- Every fresh announcement job carries the `announce_` id prefix. -/
theorem announce_isAnnounceId :
    ∀ m ∈ ANNOUNCEMENT_INTERVALS, ∀ t : ℤ,
      isAnnounceId (announceJob m t).id = true := by
  intro m hm t
  fin_cases hm <;> rfl

/-- Counting in a `filterMap` over pairwise distinct tags: when the
predicate recognizes exactly the job generated for tag `m`, the count is 1
or 0 according to whether tag `m` generates a job. -/
theorem countP_filterMap_tags (p : Job → Bool) (f : ℕ → Option Job) (m : ℕ) :
    ∀ (l : List ℕ), l.Nodup → m ∈ l →
      (∀ k ∈ l, ∀ j, f k = some j → p j = decide (k = m)) →
      (l.filterMap f).countP p = if (f m).isSome then 1 else 0 := by
  intro l
  induction l with
  | nil => intro _ hm _; simp at hm
  | cons a l ih =>
    intro hnd hm hf
    rw [List.nodup_cons] at hnd
    have hcount0 : m ∉ l → (l.filterMap f).countP p = 0 := by
      intro hma
      rw [List.countP_eq_zero]
      intro j hj
      obtain ⟨k, hk, hfk⟩ := List.mem_filterMap.mp hj
      have hp := hf k (List.mem_cons_of_mem _ hk) j hfk
      rw [hp]
      simp only [decide_eq_true_eq]
      exact fun hkm => hma (hkm ▸ hk)
    rcases List.mem_cons.mp hm with rfl | hm'
    · cases hfa : f m with
      | none =>
        rw [List.filterMap_cons_none hfa]
        simp only [Option.isSome_none, Bool.false_eq_true, if_false]
        exact hcount0 hnd.1
      | some b =>
        rw [List.filterMap_cons_some hfa, List.countP_cons]
        have hpb : p b = true := by
          have := hf m (List.mem_cons_self _ _) b hfa
          rw [this]; simp
        rw [hpb, hcount0 hnd.1]
        simp
    · have ham : a ≠ m := fun he => hnd.1 (he ▸ hm')
      have hftail : ∀ k ∈ l, ∀ j, f k = some j → p j = decide (k = m) :=
        fun k hk => hf k (List.mem_cons_of_mem _ hk)
      cases hfa : f a with
      | none =>
        rw [List.filterMap_cons_none hfa]
        exact ih hnd.2 hm' hftail
      | some b =>
        rw [List.filterMap_cons_some hfa, List.countP_cons]
        have hpb : p b = false := by
          have := hf a (List.mem_cons_self _ _) b hfa
          rw [this]; simp [ham]
        rw [hpb]
        simp only [Bool.false_eq_true, if_false, Nat.add_zero]
        exact ih hnd.2 hm' hftail

/-- Exactly one announcement job per qualifying lead time. -/
theorem countP_newAnnouncements (nb now : ℕ) :
    ∀ m ∈ ANNOUNCEMENT_INTERVALS,
      (newAnnouncements nb now).countP
          (fun j => j.id == "announce_" ++ toString m) =
        if (nb : ℤ) - (m : ℤ) * 60 > (now : ℤ) then 1 else 0 := by
  intro m hm
  have hf : ∀ k ∈ ANNOUNCEMENT_INTERVALS, ∀ j : Job,
      (if (nb : ℤ) - (k : ℤ) * 60 > (now : ℤ) then
        some (announceJob k ((nb : ℤ) - (k : ℤ) * 60)) else none) = some j →
      (j.id == "announce_" ++ toString m) = decide (k = m) := by
    intro k hk j hj
    by_cases hc : (nb : ℤ) - (k : ℤ) * 60 > (now : ℤ)
    · rw [if_pos hc] at hj
      injection hj with hj
      subst hj
      exact announce_beq k hk m hm
    · rw [if_neg hc] at hj
      exact absurd hj (by simp)
  have key := countP_filterMap_tags (fun j => j.id == "announce_" ++ toString m)
    (fun (k : ℕ) => if (nb : ℤ) - (k : ℤ) * 60 > (now : ℤ) then
      some (announceJob k ((nb : ℤ) - (k : ℤ) * 60)) else none) m
    ANNOUNCEMENT_INTERVALS (by decide) hm hf
  unfold newAnnouncements
  rw [key]
  by_cases hc : (nb : ℤ) - (m : ℤ) * 60 > (now : ℤ) <;> simp [hc]

/-- C3: for a positive server interval and a nonempty server-backup hour
set, `_schedule_next_announcements` picks as next backup time `T` the first
hour of the set strictly after the current hour at minute 0 (or the set's
first hour on the next day if no hour remains today), removes every job
whose id starts with `announce_`, and schedules exactly one one-shot
announcement job at `T - lead` for each lead in {30,15,10,5,2,1} minutes
with `T - lead` strictly after `now`, and none with `T - lead ≤ now`. -/
theorem schedule_next_announcements_spec (jobs : List Job) (si off now : ℕ)
    (hsi : 0 < si) (hne : (backupHours si off).Nonempty) :
    ∃ T : ℕ,
      nextBackupTime si off now = some T ∧
      ((∃ h ∈ backupHours si off, hourOf now < h ∧
          (∀ h' ∈ backupHours si off, hourOf now < h' → h ≤ h') ∧
          T = dayStart now + h * 3600) ∨
       ((∀ h ∈ backupHours si off, h ≤ hourOf now) ∧
        ∃ h0 ∈ backupHours si off, (∀ h' ∈ backupHours si off, h0 ≤ h') ∧
          T = dayStart now + h0 * 3600 + 86400)) ∧
      schedule_next_announcements jobs si off now =
        some ((jobs.filter (fun j => !(isAnnounceId j.id))) ++
          newAnnouncements T now) ∧
      (∀ j ∈ newAnnouncements T now, isAnnounceId j.id = true) ∧
      (∀ m ∈ ANNOUNCEMENT_INTERVALS,
        (newAnnouncements T now).countP
            (fun j => j.id == "announce_" ++ toString m) =
          if (T : ℤ) - (m : ℤ) * 60 > (now : ℤ) then 1 else 0) ∧
      (∀ j ∈ newAnnouncements T now, ∃ m ∈ ANNOUNCEMENT_INTERVALS,
        (T : ℤ) - (m : ℤ) * 60 > (now : ℤ) ∧
        j = announceJob m ((T : ℤ) - (m : ℤ) * 60)) := by
  obtain ⟨T, hT, hchar⟩ := nextBackupTime_spec si off now hsi hne
  refine ⟨T, hT, hchar, ?_, ?_, countP_newAnnouncements T now, ?_⟩
  · unfold schedule_next_announcements
    rw [if_neg (by omega : ¬ si = 0), hT]
  · intro j hj
    obtain ⟨m, hm, -, rfl⟩ := (announce_mem T now j).mp hj
    exact announce_isAnnounceId m hm _
  · intro j hj
    exact (announce_mem T now j).mp hj

/-- C3 witness: interval 6, offset 0, at midnight of day 0 with an empty
job table. -/
theorem schedule_next_announcements_spec_witness :
    0 < 6 ∧ (backupHours 6 0).Nonempty ∧
    (∃ T : ℕ, nextBackupTime 6 0 0 = some T ∧
      schedule_next_announcements [] 6 0 0 =
        some ((([] : List Job).filter (fun j => !(isAnnounceId j.id))) ++
          newAnnouncements T 0)) := by
  refine ⟨by decide, by decide, ?_⟩
  obtain ⟨T, hT, -, hs, -⟩ :=
    schedule_next_announcements_spec [] 6 0 0 (by decide) (by decide)
  exact ⟨T, hT, hs⟩

end VSM

namespace VSM

set_option maxRecDepth 100000
set_option synthInstance.maxSize 512

/-- Every job in the output of `_schedule_next_announcements` is either an
input job or a fresh announcement job. -/
theorem schedule_mem (jobs out : List Job) (si off now : ℕ)
    (hout : schedule_next_announcements jobs si off now = some out) :
    ∀ j ∈ out, j ∈ jobs ∨ ∃ m : ℕ, ∃ t : ℤ, j = announceJob m t := by
  unfold schedule_next_announcements at hout
  by_cases hsi : si = 0
  · rw [if_pos hsi] at hout
    injection hout with hout
    subst hout
    exact fun j hj => Or.inl hj
  · rw [if_neg hsi] at hout
    cases hnb : nextBackupTime si off now with
    | none => rw [hnb] at hout; exact absurd hout (by simp)
    | some nb =>
      rw [hnb] at hout
      injection hout with hout
      subst hout
      intro j hj
      rcases List.mem_append.mp hj with hj1 | hj2
      · exact Or.inl (List.mem_filter.mp hj1).1
      · obtain ⟨m, hm, hc, rfl⟩ := (announce_mem nb now j).mp hj2
        exact Or.inr ⟨m, _, rfl⟩

/-- The persistent jobs registered by `start` are the world-backup job and
the server-backup job. -/
theorem mem_startJobs1 (cfg : Config) (now : ℕ) (j : Job)
    (hj : j ∈ startJobs1 cfg now) :
    j = worldJob (sortedSetList
        (backupHours cfg.world_backup_interval cfg.backup_offset_hours \
          backupHours cfg.server_backup_interval cfg.backup_offset_hours)) now ∨
    j = serverJob (sortedSetList
        (backupHours cfg.server_backup_interval cfg.backup_offset_hours)) now := by
  unfold startJobs1 at hj
  rcases List.mem_append.mp hj with h1 | h2
  · left
    by_cases hc : 0 < cfg.world_backup_interval ∧
        (backupHours cfg.world_backup_interval cfg.backup_offset_hours \
          backupHours cfg.server_backup_interval cfg.backup_offset_hours).Nonempty
    · rw [if_pos hc] at h1
      simpa using h1
    · rw [if_neg hc] at h1
      simp at h1
  · right
    by_cases hc : 0 < cfg.server_backup_interval
    · rw [if_pos hc] at h2
      simpa using h2
    · rw [if_neg hc] at h2
      simp at h2

/-- C8: for every configuration and instant, after `start()` on a fresh
engine the hour list of the world-backup job's cron trigger is disjoint
from the hour list of the server-backup job's cron trigger; and concretely,
with `server_interval = 6`, `offset = 0`, `world_interval = 1`, the
server-backup job covers hours `{0, 6, 12, 18}` and the world-backup job
covers exactly the remaining hours of `[0, 24)`. -/
theorem world_and_server_hours_disjoint :
    (∀ (cfg : Config) (now : ℕ) (s' : VSMScheduler),
      VSMScheduler.start VSMScheduler.init cfg now = some s' →
      ∀ jw ∈ s'.get_jobs, jw.id = "world_backup" →
      ∀ js ∈ s'.get_jobs, js.id = "server_backup" →
      ∀ (hw : List ℕ) (mw : ℕ), jw.trigger = Trigger.cron hw mw →
      ∀ (hsrv : List ℕ) (msrv : ℕ), js.trigger = Trigger.cron hsrv msrv →
      ∀ h ∈ hw, h ∉ hsrv) ∧
    ((List.range 24).filter
        (fun h => decide (h ∉ ({0, 6, 12, 18} : Finset ℕ))) =
      [1, 2, 3, 4, 5, 7, 8, 9, 10, 11, 13, 14, 15, 16, 17, 19, 20, 21, 22, 23]) ∧
    (∃ s', VSMScheduler.start VSMScheduler.init ⟨1, 6, 0⟩ 0 = some s' ∧
      (∃ js ∈ s'.get_jobs, js.id = "server_backup" ∧
        js.trigger = Trigger.cron [0, 6, 12, 18] 0) ∧
      (∃ jw ∈ s'.get_jobs, jw.id = "world_backup" ∧
        jw.trigger = Trigger.cron
          [1, 2, 3, 4, 5, 7, 8, 9, 10, 11, 13, 14, 15, 16, 17, 19, 20, 21, 22, 23] 0)) := by
  refine ⟨?_, by decide, ?_⟩
  · intro cfg now s' hstart jw hjw hjwid js hjs hjsid hw mw hjwtr hsrv msrv hjstr h hh
    have h2 : startFresh cfg now = some s' := hstart
    unfold startFresh at h2
    by_cases hsi : 0 < cfg.server_backup_interval
    · rw [if_pos hsi] at h2
      cases hsch : schedule_next_announcements (startJobs1 cfg now)
          cfg.server_backup_interval cfg.backup_offset_hours now with
      | none => rw [hsch] at h2; exact absurd h2 (by simp)
      | some jobs2 =>
        rw [hsch] at h2
        injection h2 with h2
        subst h2
        simp only [VSMScheduler.get_jobs] at hjw hjs
        have hjwcase : jw = worldJob (sortedSetList
            (backupHours cfg.world_backup_interval cfg.backup_offset_hours \
              backupHours cfg.server_backup_interval cfg.backup_offset_hours)) now := by
          rcases List.mem_append.mp hjw with hj2 | hjr
          · rcases schedule_mem _ _ _ _ _ hsch jw hj2 with hj1 | ⟨m, t, rfl⟩
            · rcases mem_startJobs1 cfg now jw hj1 with rfl | rfl
              · rfl
              · simp [serverJob] at hjwid
            · simp [announceJob] at hjwtr
          · have : jw = rescheduleJob (sortedSetList
                (backupHours cfg.server_backup_interval cfg.backup_offset_hours)) now := by
              simpa using hjr
            subst this
            simp [rescheduleJob] at hjwid
        have hjscase : js = serverJob (sortedSetList
            (backupHours cfg.server_backup_interval cfg.backup_offset_hours)) now := by
          rcases List.mem_append.mp hjs with hj2 | hjr
          · rcases schedule_mem _ _ _ _ _ hsch js hj2 with hj1 | ⟨m, t, rfl⟩
            · rcases mem_startJobs1 cfg now js hj1 with rfl | rfl
              · simp [worldJob] at hjsid
              · rfl
            · simp [announceJob] at hjstr
          · have : js = rescheduleJob (sortedSetList
                (backupHours cfg.server_backup_interval cfg.backup_offset_hours)) now := by
              simpa using hjr
            subst this
            simp [rescheduleJob] at hjsid
        subst hjwcase
        subst hjscase
        simp only [worldJob, serverJob] at hjwtr hjstr
        injection hjwtr with hjwtr1 hjwtr2
        injection hjstr with hjstr1 hjstr2
        subst hjwtr1
        subst hjstr1
        have hmem1 := (mem_sortedSetList _ h).mp hh
        intro hmem2
        have hmem2' := (mem_sortedSetList _ h).mp hmem2
        exact (Finset.mem_sdiff.mp hmem1.2).2 hmem2'.2
    · rw [if_neg hsi] at h2
      injection h2 with h2
      subst h2
      simp only [VSMScheduler.get_jobs] at hjw hjs
      rcases mem_startJobs1 cfg now js hjs with rfl | rfl
      · simp [worldJob] at hjsid
      · have hsi0 : cfg.server_backup_interval = 0 := by omega
        simp only [serverJob] at hjstr
        injection hjstr with hjstr1 hjstr2
        subst hjstr1
        intro hmem
        have hmem' := (mem_sortedSetList _ h).mp hmem
        rw [hsi0] at hmem'
        simp [backupHours] at hmem'
  · refine ⟨(VSMScheduler.start VSMScheduler.init ⟨1, 6, 0⟩ 0).getD VSMScheduler.init,
      by decide, by decide, by decide⟩

/-- C8 witness: the concrete configuration of the end-to-end sentence,
together with a disjointness instance drawn from the general statement. -/
theorem world_and_server_hours_disjoint_witness :
    ∃ s', VSMScheduler.start VSMScheduler.init ⟨1, 6, 0⟩ 0 = some s' ∧
      (∃ js ∈ s'.get_jobs, js.id = "server_backup" ∧
        js.trigger = Trigger.cron [0, 6, 12, 18] 0) ∧
      (∃ jw ∈ s'.get_jobs, jw.id = "world_backup" ∧
        jw.trigger = Trigger.cron
          [1, 2, 3, 4, 5, 7, 8, 9, 10, 11, 13, 14, 15, 16, 17, 19, 20, 21, 22, 23] 0) :=
  world_and_server_hours_disjoint.2.2

end VSM
